import Mathlib

/-!
Verification of the recommendation/caching core of the backend-connect
repository against its natural-language specification.

Shallow embedding conventions:
- Python floats are modelled as rationals.  All claim-relevant values
  (0, 50, 75, 100 and the tenth-rounding of weighted sums) are exact
  decimals, far from any binary-float rounding boundary, so the
  rational model and the CPython float computation agree on every
  statement proved below.
- Python string truthiness ("if s:") is nonemptiness; None/absent keys
  are modelled with Option.
- External HTTP calls are modelled as explicit function parameters
  (environment records); the number of calls issued is tracked in the
  returned values.
- The hashlib md5 digest is modelled as an opaque deterministic
  function parameter (the code only uses it as a deterministic
  String to Nat map for picking a curated image).
-/


namespace Buddies

/- Source: src/apps/buddies/services.py, module-level weights. -/

def INTEREST_WEIGHT : ℚ := 50 / 100
def BUDGET_WEIGHT : ℚ := 20 / 100
def TRAVEL_STYLE_WEIGHT : ℚ := 20 / 100
def DURATION_WEIGHT : ℚ := 10 / 100

/-- A Preference row: interest IDs plus the three scalar fields.  The
scalar fields are modelled with Option String so that absent/None
values can be compared, exactly as the Python comparisons do. -/
structure Preference where
  interests : Finset ℕ
  budget_range : Option String
  travel_style : Option String
  preferred_trip_duration : Option String
deriving DecidableEq

/-- BuddyMatchingService._calculate_interest_score: Jaccard overlap of
interest-ID sets times 100, with 50 when both sets are empty and 0
when exactly one is empty. -/
def calculate_interest_score (u o : Finset ℕ) : ℚ :=
  if u = ∅ ∧ o = ∅ then 50
  else if u = ∅ ∨ o = ∅ then 0
  else if u ∪ o = ∅ then 0
  else ((u ∩ o).card : ℚ) / ((u ∪ o).card : ℚ) * 100

/-- BuddyMatchingService._calculate_exact_match_score. -/
def calculate_exact_match_score (v1 v2 : Option String) : ℚ :=
  if v1 = v2 then 100 else 0

/-- The ordered budget scale used by _calculate_budget_score. -/
def budget_order : List (Option String) := [some "low", some "medium", some "high"]

/-- Python list.index as a total function: index of the first element
equal to the key, or none (the ValueError branch). -/
def pyIndex (a : Option String) : List (Option String) → Option ℕ
  | [] => none
  | x :: xs => if x = a then some 0 else (pyIndex a xs).map (· + 1)

/-- BuddyMatchingService._calculate_budget_score: equal values score
100 (tested before any scale lookup); one step apart on the scale
scores 50; otherwise 0, including the ValueError branch when a value
is not on the scale. -/
def calculate_budget_score (b1 b2 : Option String) : ℚ :=
  if b1 = b2 then 100
  else
    match pyIndex b1 budget_order, pyIndex b2 budget_order with
    | some i, some j => if ((i : ℤ) - (j : ℤ)).natAbs = 1 then 50 else 0
    | _, _ => 0

/-- Round half to even at integer precision (CPython round on exact
values), computed on the numerator and denominator so that it
kernel-reduces: with f the floor of q, the fractional part
q - f = (num - f * den) / den is compared against one half by cross
multiplication. -/
def roundHalfEven (q : ℚ) : ℤ :=
  let f := Int.fdiv q.num (q.den : ℤ)
  let t := 2 * (q.num - f * (q.den : ℤ))
  if t < (q.den : ℤ) then f
  else if (q.den : ℤ) < t then f + 1
  else if f % 2 = 0 then f else f + 1

/-- Python round(x, 1). -/
def pyRound1 (q : ℚ) : ℚ := (roundHalfEven (10 * q) : ℚ) / 10

/-- BuddyMatchingService._calculate_match_score on two preference
snapshots (none = no Preference row).  The shared-interest component
is returned as the ID-set intersection; the Python code then maps the
IDs to names through the Interest table, which does not affect the
score. -/
def calculate_match_score (userPref otherPref : Option Preference) :
    ℚ × Finset ℕ :=
  match userPref, otherPref with
  | some up, some op =>
    let interest_score := calculate_interest_score up.interests op.interests
    let budget_score := calculate_budget_score up.budget_range op.budget_range
    let style_score := calculate_exact_match_score up.travel_style op.travel_style
    let duration_score :=
      calculate_exact_match_score up.preferred_trip_duration op.preferred_trip_duration
    let total := interest_score * INTEREST_WEIGHT + budget_score * BUDGET_WEIGHT +
      style_score * TRAVEL_STYLE_WEIGHT + duration_score * DURATION_WEIGHT
    (pyRound1 total, up.interests ∩ op.interests)
  | _, _ => (0, ∅)

end Buddies

/-- str.lower, modelled characterwise. -/
def pyLower (s : String) : String := ⟨s.data.map Char.toLower⟩

/-- str.strip: drop leading and trailing whitespace. -/
def pyStrip (s : String) : String :=
  ⟨((s.data.dropWhile Char.isWhitespace).reverse.dropWhile Char.isWhitespace).reverse⟩

/-- Character-list matching for str.startswith. -/
def startsList : List Char → List Char → Bool
  | [], _ => true
  | _ :: _, [] => false
  | a :: as, b :: bs => a == b && startsList as bs

/-- s.startswith(pat). -/
def strStarts (s pat : String) : Bool := startsList pat.data s.data

namespace Otm

/-- Python truthiness of an optional string: absent/None and the empty
string are falsy. -/
def truthyS : Option String → Bool
  | none => false
  | some s => !(s == "")

/-- A place dictionary as produced by the OpenTripMap radius endpoint
or the Overpass fallback (src/apps/recommendations/services/opentripmap.py).
Radius results carry coordinates in a point sub-dictionary, Overpass
results carry top-level lat/lon. -/
structure Place where
  name : Option String
  xid : Option String
  kinds : String
  point : Option (ℚ × ℚ)
  lat : Option ℚ
  lon : Option ℚ
deriving DecidableEq

/-- The body of the radius-endpoint HTTP response, as far as
get_places_by_radius distinguishes it: a JSON list, a JSON dictionary
(error or empty), or a transport/parse failure. -/
inductive OtmResp where
  | jsonList (ps : List Place)
  | jsonDict
  | httpFailure

/-- OpenTripMapService.get_places_by_radius: on a JSON list response,
keeps exactly the entries whose name and xid are both truthy;
every other case yields the empty list. -/
def get_places_by_radius (apiKeyOk : Bool) (resp : OtmResp) : List Place :=
  if !apiKeyOk then []
  else
    match resp with
    | .jsonList ps => ps.filter (fun p => truthyS p.name && truthyS p.xid)
    | _ => []

/-- The content fields of a detail payload returned by
get_place_details for a given xid: the preview source URL and the
wikipedia extract text, plus the top-level image field (all optional).
The payload of a successful fetch describes the xid it was fetched
for, so its identity fields (xid, name, kinds) are not modelled
separately.  A fetch returning none models the empty-dictionary
result (failure or negative-cached failure), which downstream code
treats exactly like an absent payload. -/
structure Details where
  previewSource : Option String
  wikiText : Option String
  image : Option String
deriving DecidableEq

/-- An enriched place as appended by get_places_with_details: the
original dictionary plus image, description and the detail payload.
details = none covers both the key being absent (candidate not
fetched) and the empty payload, which Python treats identically
(both are falsy). -/
structure Enriched where
  base : Place
  image : Option String
  description : String
  details : Option Details
deriving DecidableEq

/-- The marker prepended to Overpass-synthesized ids. -/
def osmTag : String := "osm_"

/-- An enriched entry with empty image/description and no payload. -/
def passThrough (p : Place) : Enriched := ⟨p, none, "", none⟩

/-- One iteration of the enrichment loop at position i: positions at
or past max_details pass through, ids that are falsy or start with
the Overpass marker pass through, otherwise the detail fetch runs
(the second component lists the xids fetched). -/
def enrichStep (fetch : String → Option Details) (maxD i : ℕ) (p : Place) :
    Enriched × List String :=
  if maxD ≤ i then (passThrough p, [])
  else if !truthyS p.xid || strStarts (p.xid.getD "") osmTag then (passThrough p, [])
  else
    match fetch (p.xid.getD "") with
    | some det =>
      (⟨p, (if truthyS det.previewSource then det.previewSource else none),
        (if truthyS det.wikiText then det.wikiText.getD "" else ""), some det⟩,
        [p.xid.getD ""])
    | none => (passThrough p, [p.xid.getD ""])

/-- The enrichment loop from position i onwards. -/
def enrichFrom (fetch : String → Option Details) (maxD : ℕ) :
    ℕ → List Place → List Enriched × List String
  | _, [] => ([], [])
  | i, p :: rest =>
    let one := enrichStep fetch maxD i p
    let restOut := enrichFrom fetch maxD (i + 1) rest
    (one.1 :: restOut.1, one.2 ++ restOut.2)

/-- OpenTripMapService.get_places_with_details, with the detail fetch
(get_place_details, including its short-TTL cache) as a function
parameter; also returns the list of xids that were detail-fetched,
in order. -/
def get_places_with_details (fetch : String → Option Details)
    (places : List Place) (maxD : ℕ) : List Enriched × List String :=
  enrichFrom fetch maxD 0 places

end Otm

namespace Uns

/- Source: src/apps/recommendations/services/unsplash.py -/

/-- Association-list lookup modelling Python dict.get. -/
def pyGet {α : Type} (key : String) (l : List (String × α)) : Option α :=
  (l.find? (fun kv => kv.1 == key)).map (fun kv => kv.2)

def CATEGORY_KEYWORDS : List (String × String) :=
  [("nature", "landscape nature"), ("adventure", "adventure outdoor"),
   ("culture", "culture heritage"), ("food", "food cuisine"),
   ("gastronomy", "food cuisine"), ("leisure", "leisure relaxation")]

def CATEGORY_FALLBACK_IMAGES : List (String × List String) :=
  [("nature",
    ["https://images.unsplash.com/photo-1506905925346-21bda4d32df4?w=800",
     "https://images.unsplash.com/photo-1511593358241-7eea1f3c84e5?w=800",
     "https://images.unsplash.com/photo-1469474968028-56623f02e42e?w=800",
     "https://images.unsplash.com/photo-1441974231531-c6227db76b6e?w=800",
     "https://images.unsplash.com/photo-1426604966848-d7adac402bff?w=800"]),
   ("adventure",
    ["https://images.unsplash.com/photo-1551632811-561732d1e306?w=800",
     "https://images.unsplash.com/photo-1476514525535-07fb3b4ae5f1?w=800",
     "https://images.unsplash.com/photo-1483728642387-6c3bdd6c93e5?w=800",
     "https://images.unsplash.com/photo-1501555088652-021faa106b9b?w=800"]),
   ("culture",
    ["https://images.unsplash.com/photo-1513635269975-59663e0ac1ad?w=800",
     "https://images.unsplash.com/photo-1533929736458-ca588d08c8be?w=800",
     "https://images.unsplash.com/photo-1555400038-63f5ba517a47?w=800",
     "https://images.unsplash.com/photo-1558525148-544f74d6678f?w=800"]),
   ("food",
    ["https://images.unsplash.com/photo-1504674900247-0877df9cc836?w=800",
     "https://images.unsplash.com/photo-1555939594-58d7cb561ad1?w=800",
     "https://images.unsplash.com/photo-1565299624946-b28f40a0ae38?w=800",
     "https://images.unsplash.com/photo-1546069901-ba9599a7e63c?w=800"]),
   ("gastronomy",
    ["https://images.unsplash.com/photo-1504674900247-0877df9cc836?w=800",
     "https://images.unsplash.com/photo-1555939594-58d7cb561ad1?w=800"]),
   ("leisure",
    ["https://images.unsplash.com/photo-1540541338287-41700207dee6?w=800",
     "https://images.unsplash.com/photo-1507525428034-b723cf961d3e?w=800",
     "https://images.unsplash.com/photo-1559827260-dc66d52bef19?w=800"])]

/-- CATEGORY_FALLBACK_IMAGES.get(category, CATEGORY_FALLBACK_IMAGES of
culture). -/
def fallbackImagesFor (category : String) : List String :=
  match pyGet category CATEGORY_FALLBACK_IMAGES with
  | some l => l
  | none => (pyGet "culture" CATEGORY_FALLBACK_IMAGES).getD []

/-- The outcome of one HTTP request to the image provider. -/
inductive ProviderResp where
  | found (url : String)
  | noResult
  | err403
  | failure
deriving DecidableEq

/-- The collaborators of the resolver: the provider as a deterministic
response function, the configured-API-key flag, and the md5 digest as
an opaque deterministic String to Nat map. -/
structure ImgEnv where
  provider : String → ProviderResp
  accessKeyOk : Bool
  md5 : String → ℕ

/-- The shared mutable state: the DestinationImageCache table (query
is a unique column, so the table is a map from normalized query to
(image_url, image_source)) and the process-wide disabled flag. -/
structure ImgState where
  dbCache : String → Option (String × String)
  disabled : Bool

def cacheGet (st : ImgState) (q : String) : Option (String × String) := st.dbCache q

/-- DestinationImageCache.objects.update_or_create on the unique query
column. -/
def cachePut (st : ImgState) (k u s : String) : ImgState :=
  { st with dbCache := fun q => if q = k then some (u, s) else st.dbCache q }

structure SearchOut where
  url : Option String
  state : ImgState
  calls : ℕ

/-- UnsplashService._search_unsplash: no request when the disabled
flag is set or no key is configured; a 403 response sets the flag;
an empty url field counts as no result. -/
def search_unsplash (env : ImgEnv) (st : ImgState) (query : String) : SearchOut :=
  if st.disabled then ⟨none, st, 0⟩
  else if !env.accessKeyOk then ⟨none, st, 0⟩
  else
    match env.provider query with
    | .err403 => ⟨none, { st with disabled := true }, 1⟩
    | .found u => ⟨if u == "" then none else some u, st, 1⟩
    | _ => ⟨none, st, 1⟩

/-- query.lower().strip() as applied before the cache lookup. -/
def normalizeQ (s : String) : String := pyStrip (pyLower s)

/-- Step 1 candidate: full detailed search, degrading as fields are
blank. -/
def queriesStep1 (pn ct co : String) : List String :=
  if pn ≠ "" ∧ ct ≠ "" ∧ co ≠ "" then [pn ++ " " ++ ct ++ " " ++ co]
  else if pn ≠ "" ∧ ct ≠ "" then [pn ++ " " ++ ct]
  else if pn ≠ "" then [pn] else []

/-- Step 2 candidate: city plus the category keyword, when the
category is in the keyword table. -/
def queriesStep2 (ct category : String) : List String :=
  if ct ≠ "" then
    match pyGet category CATEGORY_KEYWORDS with
    | some kw => [ct ++ " " ++ kw]
    | none => []
  else []

/-- Step 3 candidate: city and country, or city landmark. -/
def queriesStep3 (ct co : String) : List String :=
  if ct ≠ "" ∧ co ≠ "" then [ct ++ " " ++ co]
  else if ct ≠ "" then [ct ++ " landmark"] else []

/-- The candidate queries of get_place_image_with_fallback, built from
the stripped place name, city and country, in priority order. -/
def buildQueries (pn ct co category : String) : List String :=
  queriesStep1 pn ct co ++ queriesStep2 ct category ++ queriesStep3 ct co

/-- The pure cache part of the query loop: the first candidate query
whose normalized form is in the table (used to describe the loop after
the flag has been set, when no provider call can happen). -/
def cacheScan (db : String → Option (String × String)) : List String → Option (String × String)
  | [] => none
  | q :: rest =>
    match db (normalizeQ q) with
    | some pr => some pr
    | none => cacheScan db rest

structure TryOut where
  res : Option (String × String)
  state : ImgState
  calls : ℕ

/-- The query loop of get_place_image_with_fallback: for each query in
order, return a cache hit immediately, otherwise call the provider;
on success write the cache and return, on failure move on. -/
def tryQueries (env : ImgEnv) : ImgState → List String → TryOut
  | st, [] => ⟨none, st, 0⟩
  | st, q :: rest =>
    match cacheGet st (normalizeQ q) with
    | some pr => ⟨some pr, st, 0⟩
    | none =>
      let so := search_unsplash env st q
      match so.url with
      | some u => ⟨some (u, "unsplash"), cachePut so.state (normalizeQ q) u "unsplash", so.calls⟩
      | none =>
        let restOut := tryQueries env so.state rest
        ⟨restOut.res, restOut.state, so.calls + restOut.calls⟩

/-- The deterministic curated image: md5 of name_city modulo the
length of the curated list of the category. -/
def fallbackUrl (env : ImgEnv) (category pname city : String) : String :=
  let imgs := fallbackImagesFor category
  imgs.getD (env.md5 (pname ++ "_" ++ city) % imgs.length) ""

structure ResolveOut where
  url : String
  src : String
  state : ImgState
  calls : ℕ

/-- UnsplashService.get_place_image_with_fallback.  When the disabled
flag is already set the curated image is computed from the raw
(unstripped) inputs and nothing is cached; otherwise the candidate
queries run through the cache/provider loop and, if all fail, the
curated image is cached under the underscore-joined key. -/
def get_place_image_with_fallback (env : ImgEnv) (st : ImgState)
    (place_name city country category : String) : ResolveOut :=
  if st.disabled then
    ⟨fallbackUrl env category place_name city, "fallback", st, 0⟩
  else
    let pn := pyStrip place_name
    let ct := pyStrip city
    let co := pyStrip country
    let t := tryQueries env st (buildQueries pn ct co category)
    match t.res with
    | some pr => ⟨pr.1, pr.2, t.state, t.calls⟩
    | none =>
      let furl := fallbackUrl env category pn ct
      let fkey := normalizeQ (pn ++ "_" ++ ct ++ "_" ++ co)
      let st2 := if fkey == "" then t.state else cachePut t.state fkey furl "fallback"
      ⟨furl, "fallback", st2, t.calls⟩

/-- One state extends another by at most the single cache entry p
(the pair a first invocation wrote), with the same flag. -/
def ExtendedBy (st st2 : ImgState) (p : String × String) : Prop :=
  st2.disabled = st.disabled ∧
    ∀ q, st2.dbCache q = st.dbCache q ∨ st2.dbCache q = some p

end Uns

namespace Rec

/- Source: src/apps/recommendations/services/recommender.py -/

def CATEGORY_TO_KINDS : List (String × Option String) :=
  [("nature", some "natural"), ("adventure", some "sport"),
   ("culture", some "cultural,historic"), ("gastronomy", some "foods"), ("all", none)]

def INTEREST_TO_KINDS : List (String × String) :=
  [("adventure", "sport"), ("hiking", "natural,sport"), ("sports", "sport"),
   ("water sports", "sport,beaches"), ("nature", "natural"), ("beaches", "beaches,natural"),
   ("mountains", "natural"), ("wildlife", "natural"), ("culture", "cultural,historic"),
   ("history", "historic,cultural"), ("architecture", "architecture,cultural"),
   ("museums", "museums,cultural"), ("art", "cultural,museums"), ("food", "foods"),
   ("gastronomy", "foods"), ("nightlife", "amusements"), ("shopping", "shops"),
   ("relaxation", "natural,beaches"), ("photography", "natural,architecture,cultural")]

/-- The recommender module has its own, shorter curated lists,
distinct from the ones in the unsplash module. -/
def REC_CATEGORY_FALLBACK_IMAGES : List (String × List String) :=
  [("nature",
    ["https://images.unsplash.com/photo-1506905925346-21bda4d32df4?w=800",
     "https://images.unsplash.com/photo-1511593358241-7eea1f3c84e5?w=800",
     "https://images.unsplash.com/photo-1469474968028-56623f02e42e?w=800"]),
   ("adventure",
    ["https://images.unsplash.com/photo-1551632811-561732d1e306?w=800",
     "https://images.unsplash.com/photo-1476514525535-07fb3b4ae5f1?w=800"]),
   ("culture",
    ["https://images.unsplash.com/photo-1513635269975-59663e0ac1ad?w=800",
     "https://images.unsplash.com/photo-1533929736458-ca588d08c8be?w=800"]),
   ("food",
    ["https://images.unsplash.com/photo-1504674900247-0877df9cc836?w=800",
     "https://images.unsplash.com/photo-1555939594-58d7cb561ad1?w=800"]),
   ("leisure",
    ["https://images.unsplash.com/photo-1540541338287-41700207dee6?w=800",
     "https://images.unsplash.com/photo-1507525428034-b723cf961d3e?w=800"])]

/-- The Trip row fields the recommender touches: city and country are
non-null columns, region and the coordinates are nullable. -/
structure Trip where
  city : String
  region : Option String
  country : String
  latitude : Option ℚ
  longitude : Option ℚ
deriving DecidableEq

/-- Python truthiness of a nullable float column: None and 0.0 are
falsy. -/
def truthyQ : Option ℚ → Bool
  | none => false
  | some x => !(x == 0)

structure EnsureOut where
  ok : Bool
  trip : Trip
  geocodeCalls : ℕ

/-- TripRecommender._ensure_coordinates, with the geocoder outcome as
a parameter (geocode_location returns both coordinates or neither).
The saved trip and the number of geocoder calls are returned. -/
def ensure_coordinates (geo : Option (ℚ × ℚ)) (trip : Trip) : EnsureOut :=
  if truthyQ trip.latitude && truthyQ trip.longitude then ⟨true, trip, 0⟩
  else
    match geo with
    | none => ⟨false, trip, 1⟩
    | some (lat, lon) =>
      ⟨true, { trip with latitude := some lat, longitude := some lon }, 1⟩

/-- One accepted member's loaded preference data (the user id plays no
role in the computation). -/
structure Member where
  budget_range : Option String
  travel_style : Option String
  interests : List String

def countOf (l : List String) (x : String) : ℕ := (l.filter (fun y => y == x)).length

/-- Distinct elements in first-seen order (Counter key order). -/
def firstSeen (l : List String) : List String :=
  l.foldl (fun acc x => if acc.contains x then acc else acc ++ [x]) []

def insertByCount (cnt : String → ℕ) (x : String) : List String → List String
  | [] => [x]
  | y :: ys => if cnt y < cnt x then x :: y :: ys else y :: insertByCount cnt x ys

/-- Stable insertion sort by count, descending (Counter.most_common
tie behavior: first-seen order preserved among equal counts). -/
def sortByCountDesc (cnt : String → ℕ) (l : List String) : List String :=
  l.foldl (fun acc x => insertByCount cnt x acc) []

/-- TripRecommender._get_dominant_interests. -/
def get_dominant_interests (ms : List Member) : List String :=
  let all := ms.foldl (fun acc m => acc ++ m.interests) []
  if all.isEmpty then []
  else sortByCountDesc (countOf all) (firstSeen all)

/-- TripRecommender._map_interests_to_kinds.  Python accumulates the
split kind tags in a set, whose iteration order is unspecified; the
model uses first-insertion order, which only affects the text of the
kinds parameter handed to the opaque POI request. -/
def map_interests_to_kinds (interests : List String) : Option String :=
  if interests.isEmpty then none
  else
    let kindsList := (interests.take 5).foldl (fun acc i =>
      match Uns.pyGet (pyLower i) INTEREST_TO_KINDS with
      | some v => (v.splitOn ",").foldl (fun a k => if a.contains k then a else a ++ [k]) acc
      | none => acc) []
    if kindsList.isEmpty then none
    else some (String.intercalate "," (kindsList.take 8))

/-- Substring membership on character lists (the Python in operator
on strings). -/
def infixList (sub : List Char) : List Char → Bool
  | [] => sub.isEmpty
  | c :: rest => startsList sub (c :: rest) || infixList sub rest

def inStr (sub s : String) : Bool := infixList sub.data s.data

/-- TripRecommender._categorize_place: first keyword family that
matches the lowercased kinds string wins; default culture. -/
def categorize_place (kinds_str : String) : String :=
  let kl := pyLower kinds_str
  if ["natural", "beach", "mountain", "park"].any (fun k => inStr k kl) then "nature"
  else if ["sport", "climbing", "diving"].any (fun k => inStr k kl) then "adventure"
  else if ["cultural", "historic", "museum", "architecture"].any (fun k => inStr k kl) then
    "culture"
  else if ["food", "restaurant", "cafe"].any (fun k => inStr k kl) then "food"
  else "culture"

/-- The formatted output record (the wikipedia and address
passthrough fields carry no logic and are not modelled). -/
structure Formatted where
  xid : String
  name : String
  city : String
  image : String
  image_source : String
  short_description : String
  category : String
  lat : ℚ
  lon : ℚ
  kinds : String
deriving DecidableEq

def recFallbackImagesFor (category : String) : List String :=
  match Uns.pyGet category REC_CATEGORY_FALLBACK_IMAGES with
  | some l => l
  | none => (Uns.pyGet "culture" REC_CATEGORY_FALLBACK_IMAGES).getD []

/-- Python's a or b on a nullable float with default: falsy (None or
0.0) falls through. -/
def pyOrQ (a : Option ℚ) (b : ℚ) : ℚ :=
  match a with
  | none => b
  | some x => if x == 0 then b else x

/-- TripRecommender._format_place on an enriched place (the merge of
the place dictionary with its detail payload: the payload describes
the same xid, so only its content fields preview, wikipedia_extracts
and image take part in the merge).  Image resolution: provider image
first, then the unsplash resolver (threading its cache state), then
the module-local curated fallback. -/
def format_place (ienv : Uns.ImgEnv) (trip : Trip) (st : Uns.ImgState) (e : Otm.Enriched) :
    Formatted × Uns.ImgState :=
  let place_name := e.base.name.getD ""
  let city := trip.city
  let country := trip.country
  let category := categorize_place e.base.kinds
  let mImg : Option String :=
    match e.details with
    | some d => match d.image with | some s => some s | none => e.image
    | none => e.image
  let s1 : String × String :=
    if Otm.truthyS mImg then (mImg.getD "", "opentripmap")
    else
      match e.details with
      | some d =>
        match d.previewSource with
        | some s => if s ≠ "" then (s, "opentripmap") else (s, "fallback")
        | none => ("", "fallback")
      | none => ("", "fallback")
  let s2st : (String × String) × Uns.ImgState :=
    if s1.1 = "" ∧ place_name ≠ "" then
      let r := Uns.get_place_image_with_fallback ienv st place_name city country category
      ((r.url, r.src), r.state)
    else (s1, st)
  let s3 : String × String :=
    if s2st.1.1 = "" then
      (let imgs := recFallbackImagesFor category
       imgs.getD (ienv.md5 place_name % imgs.length) "", "fallback")
    else s2st.1
  let desc :=
    if e.description = "" then
      match e.details with
      | some d =>
        match d.wikiText with
        | some t => ⟨t.data.take 300⟩
        | none => ""
      | none => ""
    else e.description
  (⟨e.base.xid.getD "", (if place_name ≠ "" then place_name else "Unknown Place"), city,
    s3.1, s3.2, desc, category,
    pyOrQ (e.base.point.map (fun pt => pt.1)) (e.base.lat.getD 0),
    pyOrQ (e.base.point.map (fun pt => pt.2)) (e.base.lon.getD 0),
    e.base.kinds⟩, s2st.2)

/-- The category filter of the loop body: an explicit non-empty,
non-all category argument skips places whose computed category
differs. -/
def catSkip (category : Option String) (fcat : String) : Bool :=
  match category with
  | some c => if c ≠ "" ∧ c ≠ "all" ∧ fcat ≠ c then true else false
  | none => false

/-- The accumulation loop of TripRecommender.recommend: stop at limit,
skip falsy or already-seen xids before formatting, apply the category
filter after formatting, thread the image-cache state. -/
def recLoop (ienv : Uns.ImgEnv) (trip : Trip) (category : Option String) (limit : ℕ) :
    List Otm.Enriched → List String → List Formatted → Uns.ImgState →
      List Formatted × Uns.ImgState
  | [], _, acc, st => (acc, st)
  | e :: rest, seen, acc, st =>
    if limit ≤ acc.length then (acc, st)
    else
      let xid := e.base.xid.getD ""
      if xid = "" ∨ seen.contains xid then recLoop ienv trip category limit rest seen acc st
      else
        let fp := format_place ienv trip st e
        if catSkip category fp.1.category then
          recLoop ienv trip category limit rest (xid :: seen) acc fp.2
        else recLoop ienv trip category limit rest (xid :: seen) (acc ++ [fp.1]) fp.2

/-- The external collaborators of one recommend call: the geocoder
outcome, the loaded member rows, the POI provider key flag and radius
response, the parsed Overpass fallback list, the detail fetch and the
image-resolver environment. -/
structure RecEnv where
  geo : Option (ℚ × ℚ)
  membersData : List Member
  poiKeyOk : Bool
  poiResp : Otm.OtmResp
  overpassPlaces : List Otm.Place
  fetch : String → Option Otm.Details
  img : Uns.ImgEnv

structure Trace where
  geocodeCalls : ℕ
  radiusCalls : ℕ
  overpassCalls : ℕ
deriving DecidableEq

structure RecOut where
  recs : List Formatted
  imgState : Uns.ImgState
  trace : Trace
  trip : Trip

/-- The body of recommend after the coordinate gate: derive the kinds
parameter (it only shapes the opaque radius request), query the
primary source, fall back to Overpass when it returns nothing, stop
when both are empty, enrich the first 12 and run the loop.  Returns
(results, image state, radius calls, overpass calls). -/
def recommend_core (env : RecEnv) (st : Uns.ImgState) (trip : Trip)
    (category : Option String) (limit : ℕ) :
    List Formatted × Uns.ImgState × ℕ × ℕ :=
  let _kinds : Option String :=
    match category with
    | some c =>
      if c ≠ "" then
        match CATEGORY_TO_KINDS.find? (fun kv => kv.1 == c) with
        | some kv => kv.2
        | none => map_interests_to_kinds (get_dominant_interests env.membersData)
      else map_interests_to_kinds (get_dominant_interests env.membersData)
    | none => map_interests_to_kinds (get_dominant_interests env.membersData)
  let places1 := Otm.get_places_by_radius env.poiKeyOk env.poiResp
  let pair : List Otm.Place × ℕ :=
    if places1.isEmpty then (env.overpassPlaces, 1) else (places1, 0)
  if pair.1.isEmpty then ([], st, 1, pair.2)
  else
    let enriched := (Otm.get_places_with_details env.fetch pair.1 12).1
    let lp := recLoop env.img trip category limit enriched [] [] st
    (lp.1, lp.2, 1, pair.2)

/-- TripRecommender.recommend: coordinate gate first (persisting the
geocoded coordinates), then the core pipeline. -/
def recommend (env : RecEnv) (st : Uns.ImgState) (trip : Trip)
    (category : Option String) (limit : ℕ) : RecOut :=
  let er := ensure_coordinates env.geo trip
  if er.ok then
    let core := recommend_core env st er.trip category limit
    ⟨core.1, core.2.1, ⟨er.geocodeCalls, core.2.2.1, core.2.2.2⟩, er.trip⟩
  else ⟨[], st, ⟨er.geocodeCalls, 0, 0⟩, er.trip⟩

end Rec

namespace Buddies

lemma pyIndex_eq_none_of_not_mem {a : Option String} :
    ∀ {l : List (Option String)}, a ∉ l → pyIndex a l = none := by
  intro l
  induction l with
  | nil => intro _; rfl
  | cons x xs ih =>
    intro h
    have hx : ¬x = a := fun he => h (he ▸ List.mem_cons_self x xs)
    have hxs : a ∉ xs := fun hm => h (List.mem_cons_of_mem _ hm)
    simp [pyIndex, hx, ih hxs]

lemma calculate_budget_score_self (b : Option String) :
    calculate_budget_score b b = 100 := by
  simp [calculate_budget_score]

lemma calculate_interest_score_self (u : Finset ℕ) :
    calculate_interest_score u u = if u = ∅ then 50 else 100 := by
  by_cases h : u = ∅
  · simp [calculate_interest_score, h]
  · have hc : (u.card : ℚ) ≠ 0 := by
      exact_mod_cast Finset.card_ne_zero.mpr (Finset.nonempty_iff_ne_empty.mpr h)
    simp only [calculate_interest_score, Finset.inter_self, Finset.union_self]
    rw [if_neg (fun hh => h hh.1), if_neg (by tauto), if_neg h, if_neg h]
    rw [div_self hc]
    norm_num

end Buddies

namespace Otm

lemma truthyS_eq_some {o : Option String} (h : truthyS o = true) :
    o = some (o.getD "") := by
  cases o with
  | none => simp [truthyS] at h
  | some s => rfl

lemma enrichStep_base (fetch : String → Option Details) (maxD i : ℕ) (p : Place) :
    (enrichStep fetch maxD i p).1.base = p := by
  unfold enrichStep
  split
  · rfl
  · split
    · rfl
    · cases fetch (p.xid.getD "") <;> rfl

lemma enrichFrom_map_base (fetch : String → Option Details) (maxD : ℕ) :
    ∀ (ps : List Place) (i : ℕ),
      ((enrichFrom fetch maxD i ps).1.map (fun e => e.base)) = ps := by
  intro ps
  induction ps with
  | nil => intro i; rfl
  | cons p rest ih =>
    intro i
    simp [enrichFrom, enrichStep_base, ih (i + 1)]

lemma enrichFrom_fetched (fetch : String → Option Details) (maxD : ℕ) :
    ∀ (ps : List Place) (i : ℕ),
      (enrichFrom fetch maxD i ps).2 =
        (ps.take (maxD - i)).filterMap (fun p =>
          if truthyS p.xid && !(strStarts (p.xid.getD "") osmTag)
          then p.xid else none) := by
  intro ps
  induction ps with
  | nil => intro i; simp [enrichFrom]
  | cons p rest ih =>
    intro i
    by_cases h : maxD ≤ i
    · have h0 : maxD - i = 0 := Nat.sub_eq_zero_of_le h
      have h1 : maxD - (i + 1) = 0 := Nat.sub_eq_zero_of_le (Nat.le_succ_of_le h)
      have hr := ih (i + 1)
      rw [h1] at hr
      simp [enrichFrom, enrichStep, if_pos h, hr, h0]
    · have hs : maxD - i = (maxD - (i + 1)) + 1 := by omega
      have hr := ih (i + 1)
      by_cases hc : (truthyS p.xid && !(strStarts (p.xid.getD "") osmTag)) = true
      · rcases hxx : p.xid with _ | s
        · rw [hxx] at hc; simp [truthyS] at hc
        · rw [hxx] at hc
          have h1 : (s == "") = false := by
            cases he : (s == "") <;> simp_all [truthyS]
          have h2 : (strStarts s osmTag) = false := by
            cases hsw : strStarts s osmTag <;> simp_all [truthyS]
          cases hf : fetch s <;>
            simp [enrichFrom, enrichStep, if_neg h, hxx, truthyS, h1, h2, hf, hr, hs,
              List.filterMap_cons]
      · have hcond : (!truthyS p.xid || strStarts (p.xid.getD "") osmTag) = true := by
          cases ht : truthyS p.xid <;>
            cases hsw : strStarts (p.xid.getD "") osmTag <;> simp_all
        have hnc : ¬(truthyS p.xid = true ∧ (strStarts (p.xid.getD "") osmTag) = false) := by
          cases ht : truthyS p.xid <;>
            cases hsw : strStarts (p.xid.getD "") osmTag <;> simp_all
        simp [enrichFrom, enrichStep, if_neg h, hcond, hr, hs, List.filterMap_cons, hnc]

lemma enrichFrom_drop_all (fetch : String → Option Details) (maxD : ℕ) :
    ∀ (ps : List Place) (i : ℕ),
      (((enrichFrom fetch maxD i ps).1.drop (maxD - i)).all
        (fun e => e.image == none && e.description == "" && e.details == none)) = true := by
  intro ps
  induction ps with
  | nil => intro i; simp [enrichFrom]
  | cons p rest ih =>
    intro i
    by_cases h : maxD ≤ i
    · have h0 : maxD - i = 0 := Nat.sub_eq_zero_of_le h
      have h1 : maxD - (i + 1) = 0 := Nat.sub_eq_zero_of_le (Nat.le_succ_of_le h)
      have hr := ih (i + 1)
      rw [h1] at hr
      simp [enrichFrom, enrichStep, if_pos h, passThrough, h0]
      simpa using hr
    · have hs : maxD - i = (maxD - (i + 1)) + 1 := by omega
      have hr := ih (i + 1)
      simp only [enrichFrom, hs, List.drop_succ_cons]
      exact hr

end Otm

namespace Uns

lemma cachePut_disabled (st : ImgState) (k u s : String) :
    (cachePut st k u s).disabled = st.disabled := rfl

lemma cacheGet_cachePut (st : ImgState) (k u s q : String) :
    cacheGet (cachePut st k u s) q = if q = k then some (u, s) else cacheGet st q := rfl

lemma search_calls_le (env : ImgEnv) (st : ImgState) (q : String) :
    (search_unsplash env st q).calls ≤ 1 := by
  unfold search_unsplash
  split
  · exact Nat.zero_le 1
  · split
    · exact Nat.zero_le 1
    · cases env.provider q <;> simp

lemma search_of_disabled (env : ImgEnv) (st : ImgState) (q : String)
    (h : st.disabled = true) : search_unsplash env st q = ⟨none, st, 0⟩ := by
  simp [search_unsplash, h]

lemma search_state_or (env : ImgEnv) (st : ImgState) (q : String) :
    (search_unsplash env st q).state = st ∨
      (search_unsplash env st q).state = { st with disabled := true } := by
  unfold search_unsplash
  split
  · exact Or.inl rfl
  · split
    · exact Or.inl rfl
    · cases env.provider q <;> simp

lemma search_state_of_ndis (env : ImgEnv) (st : ImgState) (q : String)
    (h : (search_unsplash env st q).state.disabled = false) :
    (search_unsplash env st q).state = st := by
  rcases search_state_or env st q with h1 | h1
  · exact h1
  · rw [h1] at h
    simp at h

/-- The outcome of one search depends on the state only through the
flag: equal flags give equal url and call count, and if the first
search leaves its flag unchanged (no 403 was taken) the second leaves
its state untouched. -/
lemma search_congr (env : ImgEnv) (st st2 : ImgState) (q : String)
    (h : st2.disabled = st.disabled) :
    (search_unsplash env st2 q).url = (search_unsplash env st q).url ∧
      (search_unsplash env st2 q).calls = (search_unsplash env st q).calls ∧
      ((search_unsplash env st q).state.disabled = st.disabled →
        (search_unsplash env st2 q).state = st2) := by
  unfold search_unsplash
  rw [h]
  cases hd : st.disabled
  · simp only [Bool.false_eq_true, if_false]
    cases hk : env.accessKeyOk
    · simp
    · cases hp : env.provider q <;> simp
  · simp

lemma tryQ_disabled_scan (env : ImgEnv) :
    ∀ (qs : List String) (st : ImgState), st.disabled = true →
      tryQueries env st qs = ⟨cacheScan st.dbCache qs, st, 0⟩ := by
  intro qs
  induction qs with
  | nil => intro st h; rfl
  | cons q rest ih =>
    intro st h
    cases hc : cacheGet st (normalizeQ q) with
    | some pr => simp [tryQueries, cacheScan, hc, cacheGet] at hc ⊢; simp [hc]
    | none =>
      simp only [tryQueries, hc, search_of_disabled env st q h, cacheScan, ih st h]
      have hc2 : st.dbCache (normalizeQ q) = none := hc
      simp [hc2]

/-- Each candidate query costs at most one provider call. -/
lemma tryQ_calls_le (env : ImgEnv) :
    ∀ (qs : List String) (st : ImgState),
      (tryQueries env st qs).calls ≤ qs.length := by
  intro qs
  induction qs with
  | nil => intro st; simp [tryQueries]
  | cons q rest ih =>
    intro st
    cases hc : cacheGet st (normalizeQ q) with
    | some pr => simp [tryQueries, hc]
    | none =>
      have hcalls := search_calls_le env st q
      cases hu : (search_unsplash env st q).url with
      | some u =>
        simp only [tryQueries, hc, hu, List.length_cons]
        omega
      | none =>
        have hrest := ih (search_unsplash env st q).state
        simp only [tryQueries, hc, hu, List.length_cons]
        omega

/-- In a run that never takes the 403 branch, the loop either leaves
the state untouched (every query missed the cache and failed, or the
stop was a cache hit) or writes exactly the returned pair under one
key. -/
lemma tryQ_structure (env : ImgEnv) :
    ∀ (qs : List String) (st : ImgState), st.disabled = false →
      (tryQueries env st qs).state.disabled = false →
      ((tryQueries env st qs).res = none → (tryQueries env st qs).state = st) ∧
      ((tryQueries env st qs).state = st ∨
        ∃ k pr, (tryQueries env st qs).res = some pr ∧
          (tryQueries env st qs).state = cachePut st k pr.1 pr.2) := by
  intro qs
  induction qs with
  | nil => intro st h hn; exact ⟨fun _ => rfl, Or.inl rfl⟩
  | cons q rest ih =>
    intro st h hn
    cases hc : cacheGet st (normalizeQ q) with
    | some pr =>
      refine ⟨?_, Or.inl ?_⟩ <;> simp [tryQueries, hc]
    | none =>
      cases hu : (search_unsplash env st q).url with
      | some u =>
        simp only [tryQueries, hc, hu] at hn ⊢
        have hd2 : (search_unsplash env st q).state.disabled = false := by
          simpa [cachePut_disabled] using hn
        have hst : (search_unsplash env st q).state = st :=
          search_state_of_ndis env st q hd2
        refine ⟨fun hcon => by simp at hcon, Or.inr ?_⟩
        exact ⟨normalizeQ q, (u, "unsplash"), rfl, by rw [hst]⟩
      | none =>
        simp only [tryQueries, hc, hu] at hn ⊢
        have hd2 : (search_unsplash env st q).state.disabled = false := by
          by_contra hcon
          have hdis : (search_unsplash env st q).state.disabled = true :=
            eq_true_of_ne_false hcon
          rw [tryQ_disabled_scan env rest _ hdis] at hn
          rw [hdis] at hn
          exact Bool.true_eq_false ▸ hn
        have hst : (search_unsplash env st q).state = st :=
          search_state_of_ndis env st q hd2
        rw [hst] at hn ⊢
        exact ih st h hn

/-- Second-run lemma: rerunning the query loop from a state that
extends the starting state by at most the cache entry p (the pair the
first run returned) yields the same pair when the first run succeeded,
no more provider calls than the first run, and on a first-run miss
either misses again or returns p from the cache. -/
lemma tryQ_second (env : ImgEnv) :
    ∀ (qs : List String) (st st2 : ImgState) (p : String × String),
      st.disabled = false → ExtendedBy st st2 p →
      (tryQueries env st qs).state.disabled = false →
      (((tryQueries env st qs).res = some p →
          (tryQueries env st2 qs).res = some p ∧
            (tryQueries env st2 qs).calls ≤ (tryQueries env st qs).calls) ∧
        ((tryQueries env st qs).res = none →
          ((tryQueries env st2 qs).res = none ∨ (tryQueries env st2 qs).res = some p) ∧
            (tryQueries env st2 qs).calls ≤ (tryQueries env st qs).calls)) := by
  intro qs
  induction qs with
  | nil =>
    intro st st2 p hd hext hn
    constructor
    · intro hcon
      simp [tryQueries] at hcon
    · intro _
      exact ⟨Or.inl rfl, le_refl _⟩
  | cons q rest ih =>
    intro st st2 p hd hext hn
    obtain ⟨hdis, hdb⟩ := hext
    cases hc : cacheGet st (normalizeQ q) with
    | some v =>
      constructor
      · intro hres
        simp only [tryQueries, hc] at hres
        rcases hdb (normalizeQ q) with h2 | h2
        · have hc2 : cacheGet st2 (normalizeQ q) = some p := by
            rw [cacheGet, h2, ← hres]; exact hc
          simp [tryQueries, hc, hc2]
        · have hc2 : cacheGet st2 (normalizeQ q) = some p := h2
          simp [tryQueries, hc, hc2]
      · intro hres
        simp only [tryQueries, hc] at hres
        exact absurd hres (by simp)
    | none =>
      have hcongr := search_congr env st st2 q hdis
      cases hu : (search_unsplash env st q).url with
      | some u =>
        simp only [tryQueries, hc, hu] at hn ⊢
        constructor
        · intro hres
          have hp : (u, "unsplash") = p := by simpa using hres
          rcases hdb (normalizeQ q) with h2 | h2
          · have hc2 : cacheGet st2 (normalizeQ q) = none := by
              rw [cacheGet, h2]; exact hc
            have hu2 : (search_unsplash env st2 q).url = some u := by rw [hcongr.1, hu]
            simp [tryQueries, hc2, hu2, hp, hcongr.2.1]
          · have hc2 : cacheGet st2 (normalizeQ q) = some p := h2
            simp [tryQueries, hc2]
        · intro hres
          simp at hres
      | none =>
        simp only [tryQueries, hc, hu] at hn ⊢
        have hd2 : (search_unsplash env st q).state.disabled = false := by
          by_contra hcon
          have hdt : (search_unsplash env st q).state.disabled = true :=
            eq_true_of_ne_false hcon
          rw [tryQ_disabled_scan env rest _ hdt] at hn
          simp only at hn
          rw [hdt] at hn
          exact absurd hn (by simp)
        have hst : (search_unsplash env st q).state = st := search_state_of_ndis env st q hd2
        rw [hst] at hn ⊢
        rcases hdb (normalizeQ q) with h2 | h2
        · have hc2 : cacheGet st2 (normalizeQ q) = none := by
            rw [cacheGet, h2]; exact hc
          have hu2 : (search_unsplash env st2 q).url = none := by rw [hcongr.1, hu]
          have hst2 : (search_unsplash env st2 q).state = st2 :=
            hcongr.2.2 (by rw [hd2, hd])
          have hih := ih st st2 p hd ⟨hdis, hdb⟩ hn
          have hceq : (search_unsplash env st2 q).calls = (search_unsplash env st q).calls :=
            hcongr.2.1
          constructor
          · intro hres
            obtain ⟨hr2, hcal⟩ := hih.1 hres
            constructor
            · simp [tryQueries, hc2, hu2, hst2, hr2]
            · simp only [tryQueries, hc2, hu2, hst2]
              omega
          · intro hres
            obtain ⟨hr2, hcal⟩ := hih.2 hres
            constructor
            · rcases hr2 with hr2 | hr2
              · exact Or.inl (by simp [tryQueries, hc2, hu2, hst2, hr2])
              · exact Or.inr (by simp [tryQueries, hc2, hu2, hst2, hr2])
            · simp only [tryQueries, hc2, hu2, hst2]
              omega
        · have hc2 : cacheGet st2 (normalizeQ q) = some p := h2
          constructor
          · intro _
            constructor
            · simp [tryQueries, hc2]
            · simp [tryQueries, hc2]
          · intro _
            constructor
            · exact Or.inr (by simp [tryQueries, hc2])
            · simp [tryQueries, hc2]

lemma buildQueries_length_le (pn ct co g : String) :
    (buildQueries pn ct co g).length ≤ 3 := by
  have h1 : (queriesStep1 pn ct co).length ≤ 1 := by
    unfold queriesStep1; split_ifs <;> simp
  have h2 : (queriesStep2 ct g).length ≤ 1 := by
    unfold queriesStep2
    split_ifs
    · cases pyGet g CATEGORY_KEYWORDS <;> simp
    · simp
  have h3 : (queriesStep3 ct co).length ≤ 1 := by
    unfold queriesStep3; split_ifs <;> simp
  simp only [buildQueries, List.length_append]
  omega

lemma resolve_succ (env : ImgEnv) (st : ImgState) (n c k g : String)
    (pr : String × String) (hd : st.disabled = false)
    (h : (tryQueries env st (buildQueries (pyStrip n) (pyStrip c) (pyStrip k) g)).res = some pr) :
    get_place_image_with_fallback env st n c k g =
      ⟨pr.1, pr.2,
        (tryQueries env st (buildQueries (pyStrip n) (pyStrip c) (pyStrip k) g)).state,
        (tryQueries env st (buildQueries (pyStrip n) (pyStrip c) (pyStrip k) g)).calls⟩ := by
  simp [get_place_image_with_fallback, hd, h]

lemma resolve_fail (env : ImgEnv) (st : ImgState) (n c k g : String)
    (hd : st.disabled = false)
    (h : (tryQueries env st (buildQueries (pyStrip n) (pyStrip c) (pyStrip k) g)).res = none) :
    get_place_image_with_fallback env st n c k g =
      ⟨fallbackUrl env g (pyStrip n) (pyStrip c), "fallback",
        (if normalizeQ (pyStrip n ++ "_" ++ pyStrip c ++ "_" ++ pyStrip k) == "" then
          (tryQueries env st (buildQueries (pyStrip n) (pyStrip c) (pyStrip k) g)).state
         else
          cachePut (tryQueries env st (buildQueries (pyStrip n) (pyStrip c) (pyStrip k) g)).state
            (normalizeQ (pyStrip n ++ "_" ++ pyStrip c ++ "_" ++ pyStrip k))
            (fallbackUrl env g (pyStrip n) (pyStrip c)) "fallback"),
        (tryQueries env st (buildQueries (pyStrip n) (pyStrip c) (pyStrip k) g)).calls⟩ := by
  simp [get_place_image_with_fallback, hd, h]

/-- Behavior of the query loop when the provider answers some query
with a 403: the queries before it each miss the cache and fail with a
non-403 error, the 403 query sets the flag, and the remaining queries
are only scanned against the cache with no further provider calls. -/
lemma tryQ_403 (env : ImgEnv) (st : ImgState) (q : String)
    (hd : st.disabled = false) (hkey : env.accessKeyOk = true)
    (hmiss : cacheGet st (normalizeQ q) = none)
    (h403 : env.provider q = .err403) :
    ∀ (pre : List String),
      (∀ x ∈ pre, cacheGet st (normalizeQ x) = none ∧
        (env.provider x = .noResult ∨ env.provider x = .failure)) →
      ∀ post, tryQueries env st (pre ++ q :: post) =
        ⟨cacheScan st.dbCache post, { st with disabled := true }, pre.length + 1⟩ := by
  intro pre
  induction pre with
  | nil =>
    intro _ post
    have hsearch : search_unsplash env st q = ⟨none, { st with disabled := true }, 1⟩ := by
      simp [search_unsplash, hd, hkey, h403]
    have hdis2 : ({ st with disabled := true } : ImgState).disabled = true := rfl
    have hrest := tryQ_disabled_scan env post { st with disabled := true } hdis2
    simp only [List.nil_append, tryQueries, hmiss, hsearch, hrest]
    norm_num
  | cons x pre ih =>
    intro hpre post
    have hx := hpre x (List.mem_cons_self x pre)
    have hsearch : search_unsplash env st x = ⟨none, st, 1⟩ := by
      rcases hx.2 with hf | hf <;> simp [search_unsplash, hd, hkey, hf]
    have hrec := ih (fun y hy => hpre y (List.mem_cons_of_mem x hy)) post
    simp only [List.cons_append, tryQueries, hx.1, hsearch, List.length_cons]
    rw [show pre.append (q :: post) = pre ++ (q :: post) from rfl, hrec]
    have harith : 1 + (pre.length + 1) = pre.length + 1 + 1 := by omega
    rw [harith]

end Uns

namespace Rec

lemma format_place_xid (ienv : Uns.ImgEnv) (trip : Trip) (st : Uns.ImgState)
    (e : Otm.Enriched) : (format_place ienv trip st e).1.xid = e.base.xid.getD "" := rfl

/-- Loop invariant: accumulated entries carry nonempty, pairwise
distinct xids all recorded in the seen list, and the length never
exceeds the limit. -/
lemma recLoop_spec (ienv : Uns.ImgEnv) (trip : Trip) (category : Option String) (limit : ℕ) :
    ∀ (es : List Otm.Enriched) (seen : List String) (acc : List Formatted)
      (st : Uns.ImgState),
      (∀ f ∈ acc, f.xid ∈ seen ∧ f.xid ≠ "") →
      ((acc.map (fun f => f.xid)).Nodup) →
      acc.length ≤ limit →
      (((recLoop ienv trip category limit es seen acc st).1.map (fun f => f.xid)).Nodup ∧
        (recLoop ienv trip category limit es seen acc st).1.length ≤ limit ∧
        (∀ f ∈ (recLoop ienv trip category limit es seen acc st).1, f.xid ≠ "")) := by
  intro es
  induction es with
  | nil =>
    intro seen acc st hmem hnd hlen
    exact ⟨hnd, hlen, fun f hf => (hmem f hf).2⟩
  | cons e rest ih =>
    intro seen acc st hmem hnd hlen
    by_cases hstop : limit ≤ acc.length
    · simp only [recLoop, if_pos hstop]
      exact ⟨hnd, hlen, fun f hf => (hmem f hf).2⟩
    · simp only [recLoop, if_neg hstop]
      by_cases hskip : (e.base.xid.getD "" = "" ∨ seen.contains (e.base.xid.getD ""))
      · simp only [if_pos hskip]
        exact ih seen acc st hmem hnd hlen
      · simp only [if_neg hskip]
        push_neg at hskip
        obtain ⟨hx1, hx2⟩ := hskip
        have hnotseen : e.base.xid.getD "" ∉ seen := by
          intro hcon
          exact hx2 (by simpa using hcon)
        have hmem2 : ∀ f ∈ acc ++ [(format_place ienv trip st e).1],
            f.xid ∈ (e.base.xid.getD "" :: seen) ∧ f.xid ≠ "" := by
          intro f hf
          rcases List.mem_append.mp hf with hf | hf
          · exact ⟨List.mem_cons_of_mem _ (hmem f hf).1, (hmem f hf).2⟩
          · have : f = (format_place ienv trip st e).1 := by simpa using hf
            rw [this, format_place_xid]
            exact ⟨List.mem_cons_self _ _, hx1⟩
        have hmem1 : ∀ f ∈ acc, f.xid ∈ (e.base.xid.getD "" :: seen) ∧ f.xid ≠ "" :=
          fun f hf => ⟨List.mem_cons_of_mem _ (hmem f hf).1, (hmem f hf).2⟩
        have hnd2 : ((acc ++ [(format_place ienv trip st e).1]).map (fun f => f.xid)).Nodup := by
          rw [List.map_append]
          refine List.Nodup.append hnd (by simp) ?_
          intro a ha hb
          rcases List.mem_map.mp ha with ⟨f, hf, rfl⟩
          simp only [List.map_cons, List.map_nil, List.mem_singleton,
            format_place_xid] at hb
          exact hnotseen (hb ▸ (hmem f hf).1)
        have hlen2 : (acc ++ [(format_place ienv trip st e).1]).length ≤ limit := by
          simp only [List.length_append, List.length_cons, List.length_nil]
          omega
        cases hcat : catSkip category (format_place ienv trip st e).1.category
        · simp only [hcat, Bool.false_eq_true, if_false]
          exact ih _ _ _ hmem2 hnd2 hlen2
        · simp only [hcat, if_true]
          exact ih _ _ _ hmem1 hnd hlen

lemma recommend_core_spec (env : RecEnv) (st : Uns.ImgState) (trip : Trip)
    (category : Option String) (limit : ℕ) :
    (((recommend_core env st trip category limit).1.map (fun f => f.xid)).Nodup ∧
      (recommend_core env st trip category limit).1.length ≤ limit ∧
      (∀ f ∈ (recommend_core env st trip category limit).1, f.xid ≠ "")) := by
  simp only [recommend_core]
  split
  · split
    · simp
    · exact recLoop_spec env.img trip category limit _ [] [] st (by simp) (by simp)
        (Nat.zero_le _)
  · exact recLoop_spec env.img trip category limit _ [] [] st (by simp) (by simp)
      (Nat.zero_le _)

end Rec

/-- Claim C5, counterexample: an entry that has a name but no
external id is dropped by get_places_by_radius, not kept as the claim
states (the filter keeps only entries with both fields truthy). -/
theorem C5_counterexample :
    Otm.get_places_by_radius true
      (.jsonList [⟨some "Eiffel Tower", none, "", none, none, none⟩]) = [] := by rfl

/-- Claim C5, amended: get_places_by_radius keeps exactly the entries
of the provider response that have both a nonempty name and a
nonempty external id (and requires the API key to be configured);
entries missing either field are dropped. -/
theorem C5_kept_iff (keyOk : Bool) (ps : List Otm.Place) (p : Otm.Place) :
    p ∈ Otm.get_places_by_radius keyOk (.jsonList ps) ↔
      keyOk = true ∧ p ∈ ps ∧ Otm.truthyS p.name = true ∧ Otm.truthyS p.xid = true := by
  cases keyOk
  · simp [Otm.get_places_by_radius]
  · simp only [Otm.get_places_by_radius, Bool.not_true, Bool.false_eq_true, if_false,
      List.mem_filter, Bool.and_eq_true]
    tauto

/-- Claim C6, confirmed: the enricher preserves the length and order
of its input (the bases of the output are exactly the input list);
every candidate at a position at or past max_details passes through
with empty image, empty description and no detail payload; and the
xids that receive a detail fetch are exactly the truthy,
non-Overpass-marked xids of the first max_details candidates, in
order (so Overpass-marked ids are never fetched at any position). -/
theorem C6_enricher_shape (fetch : String → Option Otm.Details)
    (places : List Otm.Place) (maxD : ℕ) :
    ((Otm.get_places_with_details fetch places maxD).1.map (fun e => e.base)) = places ∧
    (((Otm.get_places_with_details fetch places maxD).1.drop maxD).all
      (fun e => e.image == none && e.description == "" && e.details == none)) = true ∧
    (Otm.get_places_with_details fetch places maxD).2 =
      (places.take maxD).filterMap (fun p =>
        if Otm.truthyS p.xid && !(strStarts (p.xid.getD "") Otm.osmTag)
        then p.xid else none) := by
  refine ⟨Otm.enrichFrom_map_base fetch maxD places 0, ?_, ?_⟩
  · have := Otm.enrichFrom_drop_all fetch maxD places 0
    simpa [Otm.get_places_with_details] using this
  · have := Otm.enrichFrom_fetched fetch maxD places 0
    simpa [Otm.get_places_with_details] using this

/-- Claim C2, counterexample: two users with identical preference rows
whose shared interest set is empty score 75.0, not 100.0 as the claim
states (the neutral 50 interest component is weighted at one half). -/
theorem C2_counterexample :
    (Buddies.calculate_match_score
        (some ⟨∅, some "low", some "solo", some "weekend"⟩)
        (some ⟨∅, some "low", some "solo", some "weekend"⟩)).1 ≠ 100 := by
  norm_num [Buddies.calculate_match_score, Buddies.calculate_interest_score,
    Buddies.calculate_budget_score, Buddies.calculate_exact_match_score,
    Buddies.INTEREST_WEIGHT, Buddies.BUDGET_WEIGHT, Buddies.TRAVEL_STYLE_WEIGHT,
    Buddies.DURATION_WEIGHT, Buddies.pyRound1, Buddies.roundHalfEven]

/-- Claim C2, amended: for every pair of preference records identical
on both sides, the overall score is 100.0 when the common interest set
is nonempty, and 75.0 when it is empty (both-empty interest sets get
the neutral 50 component, weighted at one half). -/
theorem C2_identical_prefs_score (p : Buddies.Preference) :
    (Buddies.calculate_match_score (some p) (some p)).1 =
      if p.interests = ∅ then 75 else 100 := by
  have hi := Buddies.calculate_interest_score_self p.interests
  by_cases h : p.interests = ∅
  · rw [if_pos h] at hi ⊢
    simp only [Buddies.calculate_match_score, hi, Buddies.calculate_budget_score_self,
      Buddies.calculate_exact_match_score, if_pos rfl]
    norm_num [Buddies.INTEREST_WEIGHT, Buddies.BUDGET_WEIGHT,
      Buddies.TRAVEL_STYLE_WEIGHT, Buddies.DURATION_WEIGHT,
      Buddies.pyRound1, Buddies.roundHalfEven]
  · rw [if_neg h] at hi ⊢
    simp only [Buddies.calculate_match_score, hi, Buddies.calculate_budget_score_self,
      Buddies.calculate_exact_match_score, if_pos rfl]
    norm_num [Buddies.INTEREST_WEIGHT, Buddies.BUDGET_WEIGHT,
      Buddies.TRAVEL_STYLE_WEIGHT, Buddies.DURATION_WEIGHT,
      Buddies.pyRound1, Buddies.roundHalfEven]

/-- Claim C9, confirmed: the budget component returns 100 whenever the
two values are equal, even outside the ordered low/medium/high scale
(for example both None), and returns 0 whenever they are unequal and
at least one of them is not on that scale. -/
theorem C9_budget_score_equal_or_off_scale (b1 b2 : Option String) :
    Buddies.calculate_budget_score b1 b1 = 100 ∧
      (b1 ≠ b2 → b1 ∉ Buddies.budget_order ∨ b2 ∉ Buddies.budget_order →
        Buddies.calculate_budget_score b1 b2 = 0) := by
  refine ⟨Buddies.calculate_budget_score_self b1, fun hne hmem => ?_⟩
  unfold Buddies.calculate_budget_score
  rw [if_neg hne]
  rcases hmem with h | h
  · rw [Buddies.pyIndex_eq_none_of_not_mem h]
  · rw [Buddies.pyIndex_eq_none_of_not_mem h]
    rcases Buddies.pyIndex b1 Buddies.budget_order with _ | i <;> rfl

/-- Witness for C9 at concrete inputs: two equal None budgets score
100; low versus an off-scale string scores 0. -/
theorem C9_budget_score_equal_or_off_scale_witness :
    Buddies.calculate_budget_score none none = 100 ∧
      Buddies.calculate_budget_score (some "low") (some "lavish") = 0 := by
  refine ⟨(C9_budget_score_equal_or_off_scale none none).1, ?_⟩
  exact (C9_budget_score_equal_or_off_scale (some "low") (some "lavish")).2
    (by decide) (Or.inr (by decide))

/-- Claim C1, counterexample: the original claim fails in two ways.
First, a failed candidate query is not negatively cached, so resolving
the same inputs twice repeats the provider call: with a provider that
always answers no-result, two successive invocations for ("A", no
city, no country) issue one provider call each, two across the pair,
not at most one.  Second, when the first invocation takes a 403 on its
first query and then finds a later query in the persistent cache, it
returns the cached unsplash pair while the second invocation (breaker
now set) returns a curated fallback pair, so the two pairs differ. -/
theorem C1_counterexample :
    ((Uns.get_place_image_with_fallback ⟨fun _ => .noResult, true, fun _ => 0⟩
        ⟨fun _ => none, false⟩ "A" "" "" "culture").calls +
      (Uns.get_place_image_with_fallback ⟨fun _ => .noResult, true, fun _ => 0⟩
        (Uns.get_place_image_with_fallback ⟨fun _ => .noResult, true, fun _ => 0⟩
          ⟨fun _ => none, false⟩ "A" "" "" "culture").state "A" "" "" "culture").calls = 2) ∧
    ((Uns.get_place_image_with_fallback
        ⟨fun q => if q == "A B" then .err403 else .noResult, true, fun _ => 0⟩
        ⟨fun q => if q == "b culture heritage" then some ("urlX", "unsplash") else none, false⟩
        "A" "B" "" "culture").src = "unsplash" ∧
      (Uns.get_place_image_with_fallback
        ⟨fun q => if q == "A B" then .err403 else .noResult, true, fun _ => 0⟩
        (Uns.get_place_image_with_fallback
          ⟨fun q => if q == "A B" then .err403 else .noResult, true, fun _ => 0⟩
          ⟨fun q => if q == "b culture heritage" then some ("urlX", "unsplash") else none, false⟩
          "A" "B" "" "culture").state "A" "B" "" "culture").src = "fallback") := by
  exact ⟨by decide, by decide, by decide⟩

/-- Claim C1, amended: when the first invocation encounters no
403-class answer (its returned state carries the breaker flag
unchanged), a second invocation on the resulting state returns the
identical (url, source) pair and issues no more provider calls than
the first; each invocation issues at most three provider calls (one
per candidate query).  The at-most-one-call-across-both bound of the
original claim holds only when the first candidate query succeeds or
is cached, because failed queries are not negatively cached. -/

theorem C1_resolver_idempotent (env : Uns.ImgEnv) (st : Uns.ImgState)
    (place_name city country category : String)
    (hno403 :
      (Uns.get_place_image_with_fallback env st place_name city country category).state.disabled
        = st.disabled) :
    ((Uns.get_place_image_with_fallback env
        (Uns.get_place_image_with_fallback env st place_name city country category).state
        place_name city country category).url =
      (Uns.get_place_image_with_fallback env st place_name city country category).url ∧
     (Uns.get_place_image_with_fallback env
        (Uns.get_place_image_with_fallback env st place_name city country category).state
        place_name city country category).src =
      (Uns.get_place_image_with_fallback env st place_name city country category).src) ∧
    (Uns.get_place_image_with_fallback env
        (Uns.get_place_image_with_fallback env st place_name city country category).state
        place_name city country category).calls ≤
      (Uns.get_place_image_with_fallback env st place_name city country category).calls ∧
    (Uns.get_place_image_with_fallback env st place_name city country category).calls ≤ 3 := by
  by_cases hdis : st.disabled = true
  · have h1 : Uns.get_place_image_with_fallback env st place_name city country category
        = ⟨Uns.fallbackUrl env category place_name city, "fallback", st, 0⟩ := by
      simp [Uns.get_place_image_with_fallback, hdis]
    simp [h1, Uns.get_place_image_with_fallback, hdis]
  · have hd : st.disabled = false := by simpa using hdis
    have hcap := Uns.tryQ_calls_le env
      (Uns.buildQueries (pyStrip place_name) (pyStrip city) (pyStrip country) category) st
    have hlen := Uns.buildQueries_length_le (pyStrip place_name) (pyStrip city)
      (pyStrip country) category
    rcases htr : (Uns.tryQueries env st
        (Uns.buildQueries (pyStrip place_name) (pyStrip city) (pyStrip country) category)).res
      with _ | pr
    · -- all queries failed: run 1 returned the curated fallback
      have hrun1 := Uns.resolve_fail env st place_name city country category hd htr
      have hst2dis :
          (Uns.get_place_image_with_fallback env st place_name city country category).state.disabled
            = false := by rw [hno403]; exact hd
      have htsd : (Uns.tryQueries env st
          (Uns.buildQueries (pyStrip place_name) (pyStrip city) (pyStrip country) category)).state.disabled
            = false := by
        rw [hrun1] at hst2dis
        cases hcond : (Uns.normalizeQ
            (pyStrip place_name ++ "_" ++ pyStrip city ++ "_" ++ pyStrip country) == "") <;>
          simp only [hcond, if_true, if_false, Bool.false_eq_true, Bool.true_eq_false] at hst2dis <;>
          simpa [Uns.cachePut_disabled] using hst2dis
      have hstruct := (Uns.tryQ_structure env
        (Uns.buildQueries (pyStrip place_name) (pyStrip city) (pyStrip country) category)
        st hd htsd).1 htr
      have hext : Uns.ExtendedBy st
          (Uns.get_place_image_with_fallback env st place_name city country category).state
          (Uns.fallbackUrl env category (pyStrip place_name) (pyStrip city), "fallback") := by
        rw [hrun1]
        cases hcond : (Uns.normalizeQ
            (pyStrip place_name ++ "_" ++ pyStrip city ++ "_" ++ pyStrip country) == "")
        · constructor
          · simp only [hcond, Bool.false_eq_true, if_false, Uns.cachePut_disabled]
            rw [hstruct, hd]
          · intro q
            simp only [hcond, Bool.false_eq_true, if_false]
            rw [hstruct]
            by_cases hq : q = Uns.normalizeQ
                (pyStrip place_name ++ "_" ++ pyStrip city ++ "_" ++ pyStrip country)
            · exact Or.inr (by simp [Uns.cachePut, hq])
            · exact Or.inl (by simp [Uns.cachePut, hq])
        · constructor
          · simp only [hcond, if_true]
            rw [hstruct, hd]
          · intro q
            simp only [hcond, if_true]
            rw [hstruct]
            exact Or.inl rfl
      have hsecond := (Uns.tryQ_second env
        (Uns.buildQueries (pyStrip place_name) (pyStrip city) (pyStrip country) category)
        st (Uns.get_place_image_with_fallback env st place_name city country category).state
        (Uns.fallbackUrl env category (pyStrip place_name) (pyStrip city), "fallback")
        hd hext htsd).2 htr
      rcases htr2 : (Uns.tryQueries env
          (Uns.get_place_image_with_fallback env st place_name city country category).state
          (Uns.buildQueries (pyStrip place_name) (pyStrip city) (pyStrip country) category)).res
        with _ | pr2
      · have hrun2 := Uns.resolve_fail env
          (Uns.get_place_image_with_fallback env st place_name city country category).state
          place_name city country category hst2dis htr2
        refine ⟨⟨?_, ?_⟩, ?_, ?_⟩
        · rw [hrun2, hrun1]
        · rw [hrun2, hrun1]
        · rw [hrun2]
          conv_rhs => rw [hrun1]
          exact hsecond.2
        · rw [hrun1]
          exact le_trans (hcap) hlen
      · have hp2 : pr2 = (Uns.fallbackUrl env category (pyStrip place_name) (pyStrip city),
            "fallback") := by
          rcases hsecond.1 with h | h
          · rw [htr2] at h; cases h
          · rw [htr2] at h; exact Option.some.inj h
        have hrun2 := Uns.resolve_succ env
          (Uns.get_place_image_with_fallback env st place_name city country category).state
          place_name city country category pr2 hst2dis htr2
        refine ⟨⟨?_, ?_⟩, ?_, ?_⟩
        · rw [hrun2, hrun1, hp2]
        · rw [hrun2, hrun1, hp2]
        · rw [hrun2]
          conv_rhs => rw [hrun1]
          exact hsecond.2
        · rw [hrun1]
          exact le_trans (hcap) hlen
    · -- run 1 returned a pair (cache hit or provider success)
      have hrun1 := Uns.resolve_succ env st place_name city country category pr hd htr
      have hst2dis :
          (Uns.get_place_image_with_fallback env st place_name city country category).state.disabled
            = false := by rw [hno403]; exact hd
      have htsd : (Uns.tryQueries env st
          (Uns.buildQueries (pyStrip place_name) (pyStrip city) (pyStrip country) category)).state.disabled
            = false := by
        rw [hrun1] at hst2dis
        exact hst2dis
      have hstruct := (Uns.tryQ_structure env
        (Uns.buildQueries (pyStrip place_name) (pyStrip city) (pyStrip country) category)
        st hd htsd).2
      have hext : Uns.ExtendedBy st
          (Uns.get_place_image_with_fallback env st place_name city country category).state pr := by
        rw [hrun1]
        rcases hstruct with hcase | ⟨kk, pr2, hres2, hcase⟩
        · rw [hcase]
          exact ⟨hd ▸ rfl, fun q => Or.inl rfl⟩
        · have hpe : pr2 = pr := by rw [htr] at hres2; exact (Option.some.inj hres2).symm
          rw [hcase, hpe]
          constructor
          · rw [Uns.cachePut_disabled, hd]
          · intro q
            by_cases hq : q = kk
            · exact Or.inr (by simp [Uns.cachePut, hq])
            · exact Or.inl (by simp [Uns.cachePut, hq])
      have hsecond := (Uns.tryQ_second env
        (Uns.buildQueries (pyStrip place_name) (pyStrip city) (pyStrip country) category)
        st (Uns.get_place_image_with_fallback env st place_name city country category).state
        pr hd hext htsd).1 htr
      have hrun2 := Uns.resolve_succ env
        (Uns.get_place_image_with_fallback env st place_name city country category).state
        place_name city country category pr hst2dis hsecond.1
      refine ⟨⟨?_, ?_⟩, ?_, ?_⟩
      · rw [hrun2, hrun1]
      · rw [hrun2, hrun1]
      · rw [hrun2]
        conv_rhs => rw [hrun1]
        exact hsecond.2
      · rw [hrun1]
        exact le_trans (hcap) hlen

/-- Witness for C1 at a concrete input: provider that always answers
no-result, empty cache, fine inputs; the hypothesis (no 403 taken) is
discharged by evaluation. -/
theorem C1_resolver_idempotent_witness :
    (Uns.get_place_image_with_fallback ⟨fun _ => .noResult, true, fun _ => 0⟩
      ⟨fun _ => none, false⟩ "A" "" "" "culture").calls ≤ 3 :=
  (C1_resolver_idempotent ⟨fun _ => .noResult, true, fun _ => 0⟩ ⟨fun _ => none, false⟩
    "A" "" "" "culture" (by decide)).2.2

/-- Claim C3, counterexample: with the provider answering 403 on the
first candidate query and the second candidate query already in the
persistent cache, the invocation sets the breaker flag but returns the
cached unsplash pair, not the step-4 curated fallback the claim
prescribes, so later candidate queries are consulted against the
cache. -/
theorem C3_counterexample :
    (Uns.get_place_image_with_fallback
        ⟨fun q => if q == "A B" then .err403 else .noResult, true, fun _ => 0⟩
        ⟨fun q => if q == "b culture heritage" then some ("urlX", "unsplash") else none, false⟩
        "A" "B" "" "culture").state.disabled = true ∧
    (Uns.get_place_image_with_fallback
        ⟨fun q => if q == "A B" then .err403 else .noResult, true, fun _ => 0⟩
        ⟨fun q => if q == "b culture heritage" then some ("urlX", "unsplash") else none, false⟩
        "A" "B" "" "culture").src = "unsplash" := by
  exact ⟨by decide, by decide⟩

/-- Claim C3, amended: if the provider answers the candidate query at
position pre.length with a 403 (the earlier candidates having missed
the cache and failed without a 403), the breaker flag is set and the
invocation makes no further provider calls (exactly pre.length + 1 in
total); the remaining candidate queries are still consulted against
the persistent cache: the first later cache hit is returned as-is, and
only when every later candidate misses does the invocation return the
step-4 curated fallback. -/
theorem C3_after_403 (env : Uns.ImgEnv) (st : Uns.ImgState)
    (place_name city country category : String) (pre post : List String) (q : String)
    (hqs : Uns.buildQueries (pyStrip place_name) (pyStrip city) (pyStrip country) category
      = pre ++ q :: post)
    (hd : st.disabled = false) (hkey : env.accessKeyOk = true)
    (hpre : ∀ x ∈ pre, Uns.cacheGet st (Uns.normalizeQ x) = none ∧
      (env.provider x = .noResult ∨ env.provider x = .failure))
    (hmiss : Uns.cacheGet st (Uns.normalizeQ q) = none)
    (h403 : env.provider q = .err403) :
    (Uns.get_place_image_with_fallback env st place_name city country category).state.disabled
        = true ∧
    (Uns.get_place_image_with_fallback env st place_name city country category).calls
        = pre.length + 1 ∧
    (Uns.cacheScan st.dbCache post = none →
      (Uns.get_place_image_with_fallback env st place_name city country category).url
          = Uns.fallbackUrl env category (pyStrip place_name) (pyStrip city) ∧
      (Uns.get_place_image_with_fallback env st place_name city country category).src
          = "fallback") ∧
    (∀ pr, Uns.cacheScan st.dbCache post = some pr →
      (Uns.get_place_image_with_fallback env st place_name city country category).url = pr.1 ∧
      (Uns.get_place_image_with_fallback env st place_name city country category).src = pr.2) := by
  have htq := Uns.tryQ_403 env st q hd hkey hmiss h403 pre hpre post
  have hstate : (Uns.tryQueries env st (Uns.buildQueries (pyStrip place_name) (pyStrip city)
      (pyStrip country) category)).state = { st with disabled := true } := by
    rw [hqs, htq]
  have hcalls : (Uns.tryQueries env st (Uns.buildQueries (pyStrip place_name) (pyStrip city)
      (pyStrip country) category)).calls = pre.length + 1 := by
    rw [hqs, htq]
  rcases hscan : Uns.cacheScan st.dbCache post with _ | pr
  · have htr : (Uns.tryQueries env st (Uns.buildQueries (pyStrip place_name) (pyStrip city)
        (pyStrip country) category)).res = none := by
      rw [hqs, htq]; exact hscan
    have hrun := Uns.resolve_fail env st place_name city country category hd htr
    refine ⟨?_, ?_, ?_, ?_⟩
    · rw [hrun]
      cases hcond : (Uns.normalizeQ
          (pyStrip place_name ++ "_" ++ pyStrip city ++ "_" ++ pyStrip country) == "") <;>
        simp only [hcond, Bool.false_eq_true, Bool.true_eq_false, if_true, if_false,
          Uns.cachePut_disabled] <;>
        rw [hstate]
    · rw [hrun]
      exact hcalls
    · intro _
      rw [hrun]
      exact ⟨rfl, rfl⟩
    · intro pr2 hpr2
      exact Option.noConfusion hpr2
  · have htr : (Uns.tryQueries env st (Uns.buildQueries (pyStrip place_name) (pyStrip city)
        (pyStrip country) category)).res = some pr := by
      rw [hqs, htq]; exact hscan
    have hrun := Uns.resolve_succ env st place_name city country category pr hd htr
    refine ⟨?_, ?_, ?_, ?_⟩
    · rw [hrun]
      show (Uns.tryQueries env st (Uns.buildQueries (pyStrip place_name) (pyStrip city)
        (pyStrip country) category)).state.disabled = true
      rw [hstate]
    · rw [hrun]
      exact hcalls
    · intro hcon
      exact Option.noConfusion hcon
    · intro pr2 hpr2
      obtain rfl : pr = pr2 := Option.some.inj hpr2
      rw [hrun]
      exact ⟨rfl, rfl⟩

/-- Witness for C3 at a concrete input: provider answering 403 on the
single first query, all later candidates missing the cache; the flag
is set, one call is made, and the curated fallback is returned. -/
theorem C3_after_403_witness :
    (Uns.get_place_image_with_fallback
        ⟨fun q => if q == "A B" then .err403 else .noResult, true, fun _ => 0⟩
        ⟨fun _ => none, false⟩ "A" "B" "" "culture").state.disabled = true ∧
    (Uns.get_place_image_with_fallback
        ⟨fun q => if q == "A B" then .err403 else .noResult, true, fun _ => 0⟩
        ⟨fun _ => none, false⟩ "A" "B" "" "culture").calls = 1 :=
  ⟨(C3_after_403 ⟨fun q => if q == "A B" then .err403 else .noResult, true, fun _ => 0⟩
      ⟨fun _ => none, false⟩ "A" "B" "" "culture" [] ["B culture heritage", "B landmark"] "A B"
      (by decide) rfl rfl (by simp) rfl (by decide)).1,
   (C3_after_403 ⟨fun q => if q == "A B" then .err403 else .noResult, true, fun _ => 0⟩
      ⟨fun _ => none, false⟩ "A" "B" "" "culture" [] ["B culture heritage", "B landmark"] "A B"
      (by decide) rfl rfl (by simp) rfl (by decide)).2.1⟩


/-- Claim C4, counterexample: a trip whose latitude is stored as 0.0
(with a nonzero longitude) is treated as lacking coordinates, because
the check uses Python truthiness: recommend calls the geocoder once
and overwrites the stored pair. -/
theorem C4_counterexample :
    (Rec.recommend ⟨some (5, 6), [], false, .jsonDict, [], fun _ => none,
        ⟨fun _ => .noResult, false, fun _ => 0⟩⟩ ⟨fun _ => none, false⟩
      ⟨"Paris", none, "France", some 0, some 10⟩ none 30).trace.geocodeCalls = 1 ∧
    (Rec.recommend ⟨some (5, 6), [], false, .jsonDict, [], fun _ => none,
        ⟨fun _ => .noResult, false, fun _ => 0⟩⟩ ⟨fun _ => none, false⟩
      ⟨"Paris", none, "France", some 0, some 10⟩ none 30).trip.latitude = some 5 := by
  exact ⟨by decide, by decide⟩

/-- Claim C4, amended: for every trip whose stored coordinates are
both non-null and nonzero, recommend never calls the geocoder and
leaves the trip unchanged; the geocoder is invoked when a coordinate
is missing or 0.0 (Python truthiness), and in every case at most once
per recommend call. -/
theorem C4_coordinate_gate (env : Rec.RecEnv) (st : Uns.ImgState) (trip : Rec.Trip)
    (category : Option String) (limit : ℕ) :
    ((Rec.truthyQ trip.latitude && Rec.truthyQ trip.longitude) = true →
      (Rec.recommend env st trip category limit).trace.geocodeCalls = 0 ∧
      (Rec.recommend env st trip category limit).trip = trip) ∧
    (Rec.recommend env st trip category limit).trace.geocodeCalls ≤ 1 := by
  constructor
  · intro h
    have her : Rec.ensure_coordinates env.geo trip = ⟨true, trip, 0⟩ := by
      simp [Rec.ensure_coordinates, h]
    simp [Rec.recommend, her]
  · have hle : (Rec.ensure_coordinates env.geo trip).geocodeCalls ≤ 1 := by
      unfold Rec.ensure_coordinates
      split
      · simp
      · rcases henv : env.geo with _ | ⟨la, lo⟩ <;> simp
    simp only [Rec.recommend]
    split <;> simpa using hle

/-- Witness for C4 at a concrete input: coordinates (48, 2) are set
and nonzero, so no geocoder call happens. -/
theorem C4_coordinate_gate_witness :
    (Rec.recommend ⟨some (5, 6), [], false, .jsonDict, [], fun _ => none,
        ⟨fun _ => .noResult, false, fun _ => 0⟩⟩ ⟨fun _ => none, false⟩
      ⟨"Paris", none, "France", some 48, some 2⟩ none 30).trace.geocodeCalls = 0 :=
  ((C4_coordinate_gate ⟨some (5, 6), [], false, .jsonDict, [], fun _ => none,
      ⟨fun _ => .noResult, false, fun _ => 0⟩⟩ ⟨fun _ => none, false⟩
    ⟨"Paris", none, "France", some 48, some 2⟩ none 30).1 (by decide)).1

/-- Claim C7, confirmed: a trip without usable stored coordinates
whose geocoding returns NotFound makes recommend return the empty
list, with no call to the primary or the secondary POI provider. -/
theorem C7_unresolvable_location (env : Rec.RecEnv) (st : Uns.ImgState) (trip : Rec.Trip)
    (category : Option String) (limit : ℕ)
    (hcoords : (Rec.truthyQ trip.latitude && Rec.truthyQ trip.longitude) = false)
    (hgeo : env.geo = none) :
    (Rec.recommend env st trip category limit).recs = [] ∧
    (Rec.recommend env st trip category limit).trace.radiusCalls = 0 ∧
    (Rec.recommend env st trip category limit).trace.overpassCalls = 0 := by
  have her : Rec.ensure_coordinates env.geo trip = ⟨false, trip, 1⟩ := by
    simp [Rec.ensure_coordinates, hcoords, hgeo]
  simp [Rec.recommend, her]

/-- Witness for C7 at a concrete input: no stored coordinates, the
geocoder finds nothing, so the result is empty and no POI source is
consulted. -/
theorem C7_unresolvable_location_witness :
    (Rec.recommend ⟨none, [], true, .jsonList [], [], fun _ => none,
        ⟨fun _ => .noResult, true, fun _ => 0⟩⟩ ⟨fun _ => none, false⟩
      ⟨"Atlantis", none, "", none, none⟩ none 30).recs = [] :=
  (C7_unresolvable_location ⟨none, [], true, .jsonList [], [], fun _ => none,
      ⟨fun _ => .noResult, true, fun _ => 0⟩⟩ ⟨fun _ => none, false⟩
    ⟨"Atlantis", none, "", none, none⟩ none 30 (by decide) rfl).1

/-- Claim C8, confirmed: whatever the POI source returns (duplicate
external ids included), the list recommend returns carries each
external id at most once and its length never exceeds the requested
limit. -/
theorem C8_dedup_and_limit (env : Rec.RecEnv) (st : Uns.ImgState) (trip : Rec.Trip)
    (category : Option String) (limit : ℕ) :
    (((Rec.recommend env st trip category limit).recs.map (fun f => f.xid)).Nodup ∧
      (Rec.recommend env st trip category limit).recs.length ≤ limit) := by
  simp only [Rec.recommend]
  split
  · exact ⟨(Rec.recommend_core_spec env st _ category limit).1,
      (Rec.recommend_core_spec env st _ category limit).2.1⟩
  · simp

/-- Claim C10, confirmed: every enriched candidate whose external id
is missing or empty is silently dropped before formatting and before
the category filter, so every entry of the output has a nonempty
external id. -/
theorem C10_empty_xid_excluded (env : Rec.RecEnv) (st : Uns.ImgState) (trip : Rec.Trip)
    (category : Option String) (limit : ℕ) :
    ∀ f ∈ (Rec.recommend env st trip category limit).recs, f.xid ≠ "" := by
  simp only [Rec.recommend]
  split
  · exact (Rec.recommend_core_spec env st _ category limit).2.2
  · intro f hf
    simp at hf

/-- Witness for C10 at a concrete input whose output is nonempty: the
single returned place has external id a1, which is nonempty. -/
theorem C10_empty_xid_excluded_witness :
    ((Rec.recommend ⟨none, [], true,
        .jsonList [⟨some "P", some "a1", "cultural", none, none, none⟩], [], fun _ => none,
        ⟨fun _ => .noResult, true, fun _ => 0⟩⟩ ⟨fun _ => none, false⟩
      ⟨"X", none, "Y", some 1, some 2⟩ none 30).recs.headD
        ⟨"", "", "", "", "", "", "", 0, 0, ""⟩).xid ≠ "" :=
  C10_empty_xid_excluded ⟨none, [], true,
      .jsonList [⟨some "P", some "a1", "cultural", none, none, none⟩], [], fun _ => none,
      ⟨fun _ => .noResult, true, fun _ => 0⟩⟩ ⟨fun _ => none, false⟩
    ⟨"X", none, "Y", some 1, some 2⟩ none 30 _ (by decide)
